import Mathlib

/-!
Verification of the khinsider album downloader (`downloader.py`).

The Python source is shallowly embedded: pure string manipulation becomes
Lean functions on `String` / `List Char`, Python floats used for file sizes
become exact rationals (`ℚ`), and the network is modelled as an explicit
"world" argument (a function from attempt index to outcome) threaded through
the retrying routines.  Python dictionaries (used for the configuration and
for the per-format download-link table) are modelled as insertion-ordered
association lists with dict update semantics.
-/

namespace KH

/-! ## Generic string helpers (Python `str` operations, on `List Char`) -/

/-- Whether `pat` is a prefix of `l` (Python `str.startswith` at a position). -/
def isPrefixL : List Char → List Char → Bool
  | [], _ => true
  | _ :: _, [] => false
  | p :: ps, c :: cs => p = c && isPrefixL ps cs

/-- Whether `pat` occurs as a contiguous substring of `hay` (Python `in`). -/
def subList (pat hay : List Char) : Bool :=
  match hay with
  | [] => pat.isEmpty
  | _ :: t => isPrefixL pat hay || subList pat t

/-- Python `pat in hay` on strings. -/
def strContainsSub (hay pat : String) : Bool :=
  subList pat.data hay.data

/-- Python `str.replace`: replace every non-overlapping occurrence of `pat`
by `rep`, scanning left to right.  (Python's behaviour for an empty pattern,
inserting `rep` between characters, is not modelled; every use in the source
has a non-empty pattern.) -/
def replaceAllFuel : ℕ → List Char → List Char → List Char → List Char
  | 0, l, _, _ => l
  | _ + 1, [], _, _ => []
  | fuel + 1, c :: rest, pat, rep =>
    if pat ≠ [] ∧ isPrefixL pat (c :: rest) = true then
      rep ++ replaceAllFuel fuel (List.drop pat.length (c :: rest)) pat rep
    else
      c :: replaceAllFuel fuel rest pat rep

/-- Runs `replaceAllFuel` with enough fuel for the whole scan (each step
consumes at least one character, so `l.length` suffices). -/
def replaceAll (l pat rep : List Char) : List Char :=
  replaceAllFuel l.length l pat rep

/-- Python `s.replace(pat, rep)` on `String`. -/
def strReplace (s pat rep : String) : String :=
  ⟨replaceAll s.data pat.data rep.data⟩

/-- Whether `l` ends with `suf` (Python `str.endswith`). -/
def endsWithL (l suf : List Char) : Bool :=
  isPrefixL suf.reverse l.reverse

/-- Python `s.endswith(suf)` on `String`. -/
def endsWithS (s suf : String) : Bool :=
  endsWithL s.data suf.data

/-- The part of `l` after the last `'/'` (Python `os.path.basename`, posix). -/
def lastSeg (l : List Char) : List Char :=
  (l.reverse.takeWhile (fun c => !(c = '/'))).reverse

/-- Python `os.path.basename` on `String` (posix separator). -/
def basenameS (s : String) : String :=
  ⟨lastSeg s.data⟩

/-- Python `str.upper()` for the ASCII format tokens (characterwise
`Char.toUpper`). -/
def strUpper (s : String) : String :=
  ⟨s.data.map Char.toUpper⟩

/-- Python `str.strip()`: drop leading and trailing whitespace. -/
def strStrip (s : String) : String :=
  ⟨(((s.data.dropWhile Char.isWhitespace).reverse).dropWhile Char.isWhitespace).reverse⟩

/-- Python `s[:-n]` / Lean `String.dropRight`, structurally. -/
def dropRightS (s : String) (n : ℕ) : String :=
  ⟨s.data.take (s.data.length - n)⟩

/-- Python `f"{n:02d}"` for a natural number: zero-pad to width 2. -/
def format02d (n : ℕ) : String :=
  if n < 10 then "0" ++ toString n else toString n

/-- Python `os.path.join(a, b)` for a relative second component on posix
(every join in the source appends a relative name to a directory). -/
def pathJoin (a b : String) : String :=
  a ++ "/" ++ b

/-- Python `str.split(sep)` for a non-empty separator, with an accumulator
holding the current segment in reverse. -/
def splitOnLAux (sep : List Char) : List Char → List Char → List (List Char)
  | [], acc => [acc.reverse]
  | c :: rest, acc =>
    if h : sep ≠ [] ∧ isPrefixL sep (c :: rest) = true then
      acc.reverse :: splitOnLAux sep (List.drop sep.length (c :: rest)) []
    else
      splitOnLAux sep rest (c :: acc)
termination_by l _ => l.length
decreasing_by
  · simp only [List.length_drop]
    have : sep.length ≠ 0 := by
      intro hz
      exact h.1 (List.eq_nil_of_length_eq_zero hz)
    simp only [List.length_cons]
    omega
  · simp only [List.length_cons]; omega

/-- Python `str.split(sep)` (non-empty separator). -/
def splitOnL (l sep : List Char) : List (List Char) :=
  splitOnLAux sep l []

/-! ## Percent-encoding (`urllib.parse.quote` / `unquote`)

`quote(url, safe='/:')` percent-encodes every character that is neither
RFC 3986 unreserved (alphanumeric or one of `_.-~`) nor in the safe set
`/:`, using uppercase hex digits; `unquote` decodes every `%XX` sequence
with valid hex digits and leaves a stray `%` alone.  Python operates on
UTF-8 bytes; the model works character by character, which coincides with
Python on ASCII strings (the theorems below are stated for those). -/

/-- Characters `quote(·, safe='/:')` passes through unescaped. -/
def isSafeChar (c : Char) : Bool :=
  c.isAlphanum || c = '_' || c = '.' || c = '-' || c = '~' || c = '/' || c = ':'

/-- Uppercase hex digit for `n < 16`. -/
def hexDigit (n : ℕ) : Char :=
  if n < 10 then Char.ofNat (48 + n) else Char.ofNat (55 + n)

/-- Whether `c` is a hex digit (either case), as `unquote` accepts. -/
def isHexDigitC (c : Char) : Bool :=
  c.isDigit || (decide ('A' ≤ c) && decide (c ≤ 'F')) ||
    (decide ('a' ≤ c) && decide (c ≤ 'f'))

/-- Numeric value of a hex digit. -/
def hexVal (c : Char) : ℕ :=
  if c.isDigit then c.toNat - 48
  else if 'A' ≤ c ∧ c ≤ 'F' then c.toNat - 55
  else if 'a' ≤ c ∧ c ≤ 'f' then c.toNat - 87
  else 0

/-- Encoding of one character under `quote(·, safe='/:')`. -/
def percentEncodeChar (c : Char) : List Char :=
  if isSafeChar c then [c]
  else ['%', hexDigit (c.toNat / 16), hexDigit (c.toNat % 16)]

/-- Model of `urllib.parse.quote(s, safe='/:')` at the character-list level. -/
def percentEncode : List Char → List Char
  | [] => []
  | c :: rest => percentEncodeChar c ++ percentEncode rest

/-- Model of `urllib.parse.unquote` at the character-list level: decode each `%XX`
with valid hex digits, pass everything else through. -/
def percentDecode : List Char → List Char
  | [] => []
  | '%' :: c1 :: c2 :: rest2 =>
    if isHexDigitC c1 && isHexDigitC c2 then
      Char.ofNat (16 * hexVal c1 + hexVal c2) :: percentDecode rest2
    else
      '%' :: percentDecode (c1 :: c2 :: rest2)
  | c :: rest => c :: percentDecode rest

/-- Model of `urllib.parse.quote(s, safe='/:')`. -/
def quoteS (s : String) : String :=
  ⟨percentEncode s.data⟩

/-- Model of `urllib.parse.unquote(s)`. -/
def unquoteS (s : String) : String :=
  ⟨percentDecode s.data⟩

/-! ## Python `dict` as an insertion-ordered association list

`dictSet` mirrors assignment `d[k] = v`: overwrite in place if the key is
present, append otherwise.  `dictUpdate` mirrors `d.update(src)`. -/

/-- Membership of a key (Python `k in d`). -/
def containsKey {V : Type} (d : List (String × V)) (k : String) : Bool :=
  d.any (fun p => p.1 = k)

/-- Lookup (Python `d[k]` / `d.get(k)`); keys are unique in a Python dict,
so the first hit is the only one. -/
def dictGet {V : Type} (d : List (String × V)) (k : String) : Option V :=
  match d with
  | [] => none
  | (k', v) :: rest => if k = k' then some v else dictGet rest k

/-- Assignment `d[k] = v`: overwrite in place, or append a new entry. -/
def dictSet {V : Type} (d : List (String × V)) (k : String) (v : V) : List (String × V) :=
  if containsKey d k then d.map (fun p => if p.1 = k then (k, v) else p)
  else d ++ [(k, v)]

/-- Python `d.update(src)`: set every entry of `src` into `d`, in order. -/
def dictUpdate {V : Type} (d src : List (String × V)) : List (String × V) :=
  src.foldl (fun acc p => dictSet acc p.1 p.2) d

/-! ## Persisted configuration (`load_config`, lines 36-73)

JSON values appearing in the configuration file, and the default
configuration dictionary `DEFAULT_CONFIG`.  `output_directory` defaults to
`os.path.join(os.path.expanduser('~'), 'E:\\Musique')`; the model takes the
expanded home directory as a parameter. -/

inductive JValue where
  | jnum (q : ℚ)
  | jstr (s : String)
  | jbool (b : Bool)
  | jstrlist (l : List String)
  deriving DecidableEq

/-- The `DEFAULT_CONFIG` dictionary (lines 38-45). -/
def DEFAULT_CONFIG (home : String) : List (String × JValue) :=
  [("output_directory", .jstr (pathJoin home "E:\\Musique")),
   ("max_threads", .jnum 3),
   ("format_preference", .jstrlist ["flac", "mp3"]),
   ("include_track_number", .jbool true),
   ("retry_attempts", .jnum 3),
   ("retry_delay", .jnum 5)]

/-- Observable state of the configuration file: absent, present but failing
to open/parse as a JSON object (any exception), or parsed to an object. -/
inductive ConfigFile where
  | absent
  | malformed
  | parsed (d : List (String × JValue))

/-- Model of `load_config` (lines 59-73): on a parsed file, copy the defaults and
`update` them with the stored object; on a missing file or any exception
(with a warning logged), the defaults. -/
def load_config (home : String) : ConfigFile → List (String × JValue)
  | .absent => DEFAULT_CONFIG home
  | .malformed => DEFAULT_CONFIG home
  | .parsed d => dictUpdate (DEFAULT_CONFIG home) d

/-- Constants of `sanitize_filename` (lines 446-452): the characters forbidden in Windows
file names, replaced by `_`.  Each Python `str.replace` call has a
single-character pattern and replacement, so it acts characterwise. -/
def forbidden_chars : List Char := ['\\', '/', ':', '*', '?', '"', '<', '>', '|']

/-- One `filename.replace(char, '_')` step. -/
def scrubChar (c : Char) (s : String) : String :=
  ⟨s.data.map (fun x => if x = c then '_' else x)⟩

/-- Model of `sanitize_filename` (lines 446-452). -/
def sanitize_filename (filename : String) : String :=
  forbidden_chars.foldl (fun s c => scrubChar c s) filename

/-- Model of `validate_url` (lines 86-93). -/
def validate_url (url : String) : Bool :=
  if strStrip url = "" then false
  else strContainsSub url "//downloads.khinsider.com/game-soundtracks/album/"

/-! ## `safe_request` (lines 96-108)

`urlopen` outcomes are modelled by a world function from attempt index to
`Except NetError response`.  In Python, `urllib.error.HTTPError` (a non-2xx
HTTP status) is a subclass of `urllib.error.URLError`, so the
`except urllib.error.URLError` clause catches transport errors and HTTP
status errors alike; any other exception propagates uncaught. -/

inductive NetError where
  /-- A `URLError` proper: connection refused, timeout, DNS failure. -/
  | transport (msg : String)
  /-- An `HTTPError` with a status code; subclasses `URLError` in Python. -/
  | http (code : ℕ)
  /-- Any exception that is not a `URLError`. -/
  | other (msg : String)
  deriving DecidableEq

/-- Whether `isinstance(e, urllib.error.URLError)` holds. -/
def isURLError : NetError → Bool
  | .transport _ => true
  | .http _ => true
  | .other _ => false

/-- Result of `safe_request`: a returned response, a propagated exception,
or Python's implicit `None` when `retry_count = 0` makes the loop body never
run. -/
inductive ReqResult (α : Type) where
  | ok (r : α)
  | raised (e : NetError)
  | noneResult
  deriving DecidableEq

/-- The retry loop of `safe_request`, with the remaining loop iterations as
fuel and the count of `time.sleep(retry_delay)` calls accumulated. -/
def safeRequestGo {α : Type} (world : ℕ → Except NetError α) (retryCount : ℕ) :
    ℕ → ℕ → ℕ → ReqResult α × ℕ
  | 0, _, sleeps => (.noneResult, sleeps)
  | fuel + 1, attempt, sleeps =>
    match world attempt with
    | .ok r => (.ok r, sleeps)
    | .error e =>
      if isURLError e then
        if attempt < retryCount - 1 then
          safeRequestGo world retryCount fuel (attempt + 1) (sleeps + 1)
        else
          (.raised e, sleeps)
      else
        (.raised e, sleeps)

/-- Model of `safe_request(url, retry_count, retry_delay)` (lines 96-108), returning
the outcome together with the number of sleeps performed. -/
def safe_request {α : Type} (world : ℕ → Except NetError α) (retryCount : ℕ) :
    ReqResult α × ℕ :=
  safeRequestGo world retryCount retryCount 0 0

end KH

namespace KH

/-! ## `download_file` (lines 279-335)

Each loop iteration first runs the skip-by-size check against the file
currently at `file_path`, then performs the fetch-and-stream.  The outcome
of the fetch-and-stream of attempt `i` is given by a world function:
either an exception (carrying the bytes written to the file before it was
raised, if the file had been opened), or a completed stream with the
advertised `Content-Length` and the number of bytes read and written.
Python compares sizes as floats; the model uses exact rationals. -/

inductive AttemptOutcome where
  /-- An exception during `safe_request` or streaming; `written = some b`
  when the destination file was (re)created and holds `b` bytes, `none`
  when the exception preceded opening the file. -/
  | failAt (written : Option ℕ)
  /-- A completed stream: advertised `Content-Length` and bytes written. -/
  | transfer (contentLength : ℕ) (delivered : ℕ)
  deriving DecidableEq

/-- Observable state threaded through `download_file`: the size in bytes of
the file at `file_path` (`none` when absent), the number of network
transfers started (`safe_request(url)` calls), and the number of
`time.sleep(retry_delay)` calls. -/
structure DLState where
  disk : Option ℕ
  fetches : ℕ
  sleeps : ℕ
  deriving DecidableEq

/-- Bytes to megabytes: `size / (1024 * 1024)` (line 285). -/
def mbOfBytes (n : ℕ) : ℚ :=
  (n : ℚ) / (1024 * 1024)

/-- The skip-by-size check (lines 284-289): the file exists, `expected_size`
is truthy (Python treats `None` and `0` alike here; sizes are non-negative,
and an unknown size is stored as `0`), and the sizes agree within 0.1 MB. -/
def skipCheck (disk : Option ℕ) (expected : ℚ) : Bool :=
  match disk with
  | some b => decide (expected ≠ 0) && decide (|mbOfBytes b - expected| < 1 / 10)
  | none => false

/-- The retry loop of `download_file`, with remaining iterations as fuel. -/
def downloadFileGo (world : ℕ → AttemptOutcome) (expected : ℚ) (retryCount : ℕ) :
    ℕ → ℕ → DLState → DLState × Option Bool
  | 0, _, st => (st, none)
  | fuel + 1, attempt, st =>
    if skipCheck st.disk expected then
      (st, some true)
    else
      match world attempt with
      | .transfer len delivered =>
        let st' : DLState := ⟨some delivered, st.fetches + 1, st.sleeps⟩
        if 0 < len ∧ len ≠ delivered then
          if attempt < retryCount - 1 then
            downloadFileGo world expected retryCount fuel (attempt + 1)
              ⟨st'.disk, st'.fetches, st'.sleeps + 1⟩
          else
            (st', some false)
        else
          (st', some true)
      | .failAt written =>
        let disk' := match written with
          | some b => some b
          | none => st.disk
        let st' : DLState := ⟨disk', st.fetches + 1, st.sleeps⟩
        if attempt < retryCount - 1 then
          downloadFileGo world expected retryCount fuel (attempt + 1)
            ⟨st'.disk, st'.fetches, st'.sleeps + 1⟩
        else
          (st', some false)

/-- Model of `download_file(url, file_path, expected_size, retry_count, retry_delay)`
(lines 279-335).  `disk0` is the size of the file initially at `file_path`;
the result is `some true`/`some false` as returned by the Python function,
and `none` for the implicit `None` when `retry_count = 0`. -/
def download_file (world : ℕ → AttemptOutcome) (expected : ℚ) (retryCount : ℕ)
    (disk0 : Option ℕ) : DLState × Option Bool :=
  downloadFileGo world expected retryCount retryCount 0 ⟨disk0, 0, 0⟩

end KH

namespace KH

/-! ## `get_track_download_url` (lines 170-276)

The fetched and parsed detail page is modelled by the pieces of it the
function reads: the hyperlinks (each with its visible text, `href`
attribute, and the text of its parent element, which carries the
`(<size> MB)` annotation), the `src` attribute of an `<audio>` element if
one exists, and the text of the second `<b>` inside the `<p align="left">`
element if present.  The FLAC existence probe `urllib2.urlopen(flac_url)`
is modelled by a predicate giving the probe outcome per URL. -/

structure PageLink where
  text : String
  href : Option String
  parentText : String
  deriving DecidableEq

structure DetailPage where
  links : List PageLink
  audioSrc : Option String
  boldTitle : Option String
  deriving DecidableEq

/-- The per-format entry of the `download_links` dict (lines 217-222). -/
structure TrackCandidate where
  url : String
  format : String
  title : String
  size : ℚ
  deriving DecidableEq

/-- Truthiness of `link.get('href')`: present and non-empty. -/
def hrefTruthy : Option String → Bool
  | some h => h != ""
  | none => false

/-- The test of lines 204-206: the link text is truthy, contains
`"Click here to download as " + format_type.upper()`, and the link has a
truthy `href`. -/
def linkMatches (fmt : String) (l : PageLink) : Bool :=
  (l.text != "") && strContainsSub l.text ("Click here to download as " ++ strUpper fmt)
    && hrefTruthy l.href

/-- Model of `float(s)` for the plain decimal literals the size annotation carries
(digits with an optional single decimal point), as an exact rational;
any other shape fails like `float(...)` raising. -/
def parseDecimal? (s : String) : Option ℚ :=
  match splitOnL s.data ['.'] with
  | [a] =>
    if a ≠ [] ∧ a.all Char.isDigit then some ((a.foldl (fun n c => 10 * n + (c.toNat - 48)) 0 : ℕ) : ℚ)
    else none
  | [a, b] =>
    if (a ≠ [] ∨ b ≠ []) ∧ a.all Char.isDigit ∧ b.all Char.isDigit then
      some (((a.foldl (fun n c => 10 * n + (c.toNat - 48)) 0 : ℕ) : ℚ)
        + ((b.foldl (fun n c => 10 * n + (c.toNat - 48)) 0 : ℕ) : ℚ) / (10 : ℚ) ^ b.length)
    else none
  | _ => none

/-- Size extraction (lines 207-215): if the parent text contains `"MB"`,
take `text.split('(')[1].split(' MB')[0]` and parse it as a float; on any
failure (`IndexError` from `[1]`, or `float` raising) the size stays `0`. -/
def parseSizeText (sizeText : String) : ℚ :=
  if strContainsSub sizeText "MB" then
    match splitOnL sizeText.data ['('] with
    | _ :: second :: _ =>
      match splitOnL second (" MB".data) with
      | first :: _ => (parseDecimal? ⟨first⟩).getD 0
      | [] => 0
    | _ => 0
  else 0

/-- The candidate recorded for `fmt` from link `l` (lines 217-222). -/
def candOfLink (fmt title : String) (l : PageLink) : TrackCandidate :=
  { url := l.href.getD "", format := fmt, title := title, size := parseSizeText l.parentText }

/-- The last link of the page matching `fmt`, i.e. the one whose candidate
survives in `download_links[fmt]` after the scan of lines 201-222. -/
def lastMatch (links : List PageLink) (fmt : String) : Option PageLink :=
  match links with
  | [] => none
  | l :: rest =>
    match lastMatch rest fmt with
    | some m => some m
    | none => if linkMatches fmt l then some l else none

/-- The `download_links` dict after the double loop of lines 199-222. -/
def buildDownloadLinks (page : DetailPage) (formatPreference : List String)
    (title : String) : List (String × TrackCandidate) :=
  formatPreference.foldl
    (fun d fmt =>
      page.links.foldl
        (fun d2 l => if linkMatches fmt l then dictSet d2 fmt (candOfLink fmt title l) else d2)
        d)
    []

/-- The retrieval loop of lines 225-226: the first format of the preference
list present in the dict. -/
def firstPreferred {V : Type} : List String → List (String × V) → Option V
  | [], _ => none
  | f :: rest, d =>
    match dictGet d f with
    | some v => some v
    | none => firstPreferred rest d

/-- Fallback title (lines 192-196): file name of the URL with `%20`
decoded and a trailing `.mp3` stripped. -/
def fallbackTitle (detailURL : String) : String :=
  let base := strReplace (basenameS detailURL) "%20" " "
  if endsWithS base ".mp3" then dropRightS base 4 else base

/-- Title resolution (lines 183-196): the stripped text of the second bold
element when truthy, the URL-derived name otherwise. -/
def resolveTitle (page : DetailPage) (detailURL : String) : String :=
  match page.boldTitle with
  | some t => if strStrip t != "" then strStrip t else fallbackTitle detailURL
  | none => fallbackTitle detailURL

/-- Model of `get_track_download_url(track_url, format_preference)` (lines 170-276).
`probeOk url` tells whether the speculative `urllib2.urlopen(url)` FLAC
probe succeeds.  (Lines 174-178 set `detail_url = track_url` in both
branches of the `.mp3` test, which the model reproduces.) -/
def get_track_download_url (page : DetailPage) (trackURL : String)
    (formatPreference : List String) (probeOk : String → Bool) : Option TrackCandidate :=
  let detailURL := if endsWithS trackURL ".mp3" then trackURL else trackURL
  let trackTitle := resolveTitle page detailURL
  let downloadLinks := buildDownloadLinks page formatPreference trackTitle
  match firstPreferred formatPreference downloadLinks with
  | some cand => some { cand with url := quoteS (unquoteS cand.url) }
  | none =>
    match page.audioSrc with
    | some src0 =>
      if src0 != "" then
        let src := quoteS (unquoteS src0)
        if formatPreference.contains "flac" then
          let flacUrl := strReplace src ".mp3" ".flac"
          if probeOk flacUrl then
            some { url := flacUrl, format := "flac", title := trackTitle, size := 0 }
          else
            some { url := src, format := "mp3", title := trackTitle, size := 0 }
        else
          some { url := src, format := "mp3", title := trackTitle, size := 0 }
      else none
    | none => none

/-- Modelled from the spec: the FLAC URL derivation as §4.3 words it,
"replacing the `.mp3` SUFFIX with `.flac`" (used only to compare against
the source's `str.replace`, which replaces every occurrence). -/
def specFlacFromSuffix (s : String) : String :=
  if endsWithS s ".mp3" then dropRightS s 4 ++ ".flac" else s

/-- Whether some labelled link yields a tier-1 candidate for `fmt`. -/
def hasCand (page : DetailPage) (fmt : String) : Bool :=
  (lastMatch page.links fmt).isSome

end KH

namespace KH

/-! ## Catalog parsing and orchestration (lines 111-167, 364-443) -/

structure TrackStub where
  name : String
  url : String
  deriving DecidableEq

structure AlbumInfo where
  title : String
  url : String
  tracks : List TrackStub
  deriving DecidableEq

/-- One `<tr>` of the song list, as read by lines 139-159: `some (href?,
text)` when the row has a `td.clickable-row` cell whose first `<a>` exists
(`href?` being its `href` attribute), `none` otherwise. -/
structure CatalogRow where
  link : Option (Option String × String)
  deriving DecidableEq

def BASE_URL : String := "https://downloads.khinsider.com"

/-- Lines 144-159: a row contributes a track when its first clickable-cell
link exists and has a truthy `href`; the name is the stripped link text and
the detail URL is `BASE_URL + href`. -/
def rowToTrack (row : CatalogRow) : Option TrackStub :=
  match row.link with
  | some (some href, text) =>
    if href != "" then some ⟨strStrip text, BASE_URL ++ href⟩ else none
  | _ => none

/-- Model of `get_album_info(url, config)` (lines 111-167) given the parsed page:
the `<h2>` text if any, and the rows of the `songlist` element (`none` when
the element is missing, which returns `None`).  The album title is stripped
and sanitized (lines 118-119). -/
def get_album_info (h2Text : Option String) (songlist : Option (List CatalogRow))
    (url : String) : Option AlbumInfo :=
  match songlist with
  | none => none
  | some rows =>
    some { title := sanitize_filename (match h2Text with
             | some t => strStrip t
             | none => "Unknown Album")
         , url := url
         , tracks := rows.filterMap rowToTrack }

/-- The configuration record consumed by the downloading functions. -/
structure Config where
  output_directory : String
  max_threads : ℕ
  format_preference : List String
  include_track_number : Bool
  retry_attempts : ℕ
  retry_delay : ℚ

/-- Lines 374-376: the file name, with the zero-padded track number
prepended when `include_track_number` is set and a number was passed. -/
def track_filename (name : String) (includeNum : Bool) (trackNumber : Option ℕ) : String :=
  match includeNum, trackNumber with
  | true, some n => format02d n ++ " - " ++ name
  | _, _ => name

/-- Line 378: `os.path.join(output_dir, f"{track_filename}.{format}")`. -/
def trackFilePath (outputDir name : String) (includeNum : Bool) (trackNumber : Option ℕ)
    (fmt : String) : String :=
  pathJoin outputDir (track_filename name includeNum trackNumber ++ "." ++ fmt)

/-- The per-track environment: the fetched detail page, the FLAC probe
outcomes, the streaming outcomes of the download attempts, and the size of
any file already at the destination path. -/
structure TrackEnv where
  page : DetailPage
  probeOk : String → Bool
  dlWorld : ℕ → AttemptOutcome
  disk0 : Option ℕ

/-- Model of `download_track(track, album_info, output_dir, config, track_number)`
(lines 364-396): resolve, build the file path, download.  Returns the file
path it targeted (when resolution succeeded) and the truthiness of the
value `download_track` returns (`download_file`'s result; `None` from a
zero-attempt loop is falsy, as the orchestrator's `if future.result()`
treats it). -/
def download_track (stub : TrackStub) (outputDir : String) (cfg : Config)
    (trackNumber : Option ℕ) (env : TrackEnv) : Option String × Bool :=
  match get_track_download_url env.page stub.url cfg.format_preference env.probeOk with
  | none => (none, false)
  | some info =>
    let path := trackFilePath outputDir stub.name cfg.include_track_number trackNumber info.format
    let res := download_file env.dlWorld info.size cfg.retry_attempts env.disk0
    (some path, res.2 = some true)

/-- The album-level environment: the parsed album page and one `TrackEnv`
per submitted task index. -/
structure AlbumEnv where
  h2Text : Option String
  songlist : Option (List CatalogRow)
  trackEnvs : ℕ → TrackEnv

/-- Model of `download_album(album_url, config)` (lines 399-443).  Tasks are
submitted in catalog order with `enumerate`; the worker pool only
reorders completions, and line 437 waits on every future in submission
order, so the per-task results are those of `download_track` applied to
the values captured at submission.  Returns the per-task results in
submission order together with the album-level boolean
`success_count == len(tracks)`. -/
def download_album (albumURL : String) (cfg : Config) (env : AlbumEnv) :
    List (Option String × Bool) × Bool :=
  if validate_url albumURL = false then ([], false)
  else
    match get_album_info env.h2Text env.songlist albumURL with
    | none => ([], false)
    | some album =>
      if album.tracks.isEmpty then ([], false)
      else
        let outDir := pathJoin cfg.output_directory album.title
        let results := album.tracks.enum.map
          (fun p => download_track p.2 outDir cfg (some (p.1 + 1)) (env.trackEnvs p.1))
        let successCount := (results.map Prod.snd).count true
        (results, decide (successCount = album.tracks.length))

end KH

namespace KH

/-! ## Lemmas about the percent codec -/

lemma isHexDigitC_hexDigit {n : ℕ} (h : n < 16) : isHexDigitC (hexDigit n) = true := by
  interval_cases n <;> decide

lemma hexVal_hexDigit {n : ℕ} (h : n < 16) : hexVal (hexDigit n) = n := by
  interval_cases n <;> decide

lemma ne_percent_of_safe {c : Char} (h : isSafeChar c = true) : c ≠ '%' := by
  intro hc
  subst hc
  exact absurd h (by decide)

lemma percentDecode_cons_ne {c : Char} (l : List Char) (h : c ≠ '%') :
    percentDecode (c :: l) = c :: percentDecode l := by
  match l with
  | [] => simp only [percentDecode]
  | [a] =>
    rw [percentDecode.eq_def]
    split <;> simp_all
  | a :: b :: t =>
    rw [percentDecode.eq_def]
    split <;> simp_all

lemma percentDecode_hex (c1 c2 : Char) (l : List Char)
    (h1 : isHexDigitC c1 = true) (h2 : isHexDigitC c2 = true) :
    percentDecode ('%' :: c1 :: c2 :: l) =
      Char.ofNat (16 * hexVal c1 + hexVal c2) :: percentDecode l := by
  simp [percentDecode, h1, h2]

/-- Round trip of the codec: decoding an encoded ASCII string gives it back. -/
lemma percentDecode_percentEncode (l : List Char) (h : ∀ c ∈ l, c.toNat < 128) :
    percentDecode (percentEncode l) = l := by
  induction l with
  | nil => rfl
  | cons c t ih =>
    have hc : c.toNat < 128 := h c (List.mem_cons_self ..)
    have ht : ∀ x ∈ t, x.toNat < 128 := fun x hx => h x (List.mem_cons_of_mem _ hx)
    rw [percentEncode]
    by_cases hs : isSafeChar c = true
    · rw [percentEncodeChar, if_pos hs]
      simp only [List.cons_append, List.nil_append]
      rw [percentDecode_cons_ne _ (ne_percent_of_safe hs), ih ht]
    · rw [percentEncodeChar, if_neg hs]
      have hdiv : c.toNat / 16 < 16 := by omega
      have hmod : c.toNat % 16 < 16 := by omega
      simp only [List.cons_append, List.nil_append]
      rw [percentDecode_hex _ _ _ (isHexDigitC_hexDigit hdiv) (isHexDigitC_hexDigit hmod),
        hexVal_hexDigit hdiv, hexVal_hexDigit hmod, Nat.div_add_mod, Char.ofNat_toNat, ih ht]

/-! ## Lemmas about the dict model -/

lemma dictGet_append {V : Type} (a b : List (String × V)) (k : String) :
    dictGet (a ++ b) k =
      match dictGet a k with
      | some v => some v
      | none => dictGet b k := by
  induction a with
  | nil => simp [dictGet]
  | cons p rest ih =>
    cases p with
    | mk k' v =>
      by_cases hk : k = k' <;> simp [dictGet, hk, ih]

lemma dictGet_eq_none_of_not_containsKey {V : Type} (d : List (String × V)) (k : String)
    (h : containsKey d k = false) : dictGet d k = none := by
  induction d with
  | nil => rfl
  | cons p rest ih =>
    simp only [containsKey, List.any_cons, Bool.or_eq_false_iff] at h
    cases p with
    | mk k' v =>
      have : ¬ (k = k') := by
        intro he
        simp [he] at h
      rw [dictGet, if_neg this]
      exact ih (by simpa [containsKey] using h.2)

lemma overwriteEntry_eq_of_fst {V : Type} (k k0 : String) (v v0 : V)
    (h : k0 = k) : (if k0 = k then (k, v) else (k0, v0)) = (k, v) := if_pos h

lemma overwriteEntry_eq_of_ne {V : Type} (k k0 : String) (v v0 : V)
    (h : ¬ k0 = k) : (if k0 = k then (k, v) else (k0, v0)) = (k0, v0) := if_neg h

lemma dictGet_map_overwrite {V : Type} (d : List (String × V)) (k k' : String) (v : V)
    (hne : k' ≠ k) :
    dictGet (d.map (fun p => if p.1 = k then (k, v) else p)) k' = dictGet d k' := by
  induction d with
  | nil => rfl
  | cons p rest ih =>
    cases p with
    | mk k0 v0 =>
      simp only [List.map_cons]
      by_cases hk0 : k0 = k
      · subst hk0
        rw [overwriteEntry_eq_of_fst _ _ _ _ rfl]
        rw [dictGet, if_neg hne, dictGet, if_neg hne, ih]
      · rw [overwriteEntry_eq_of_ne _ _ _ _ hk0]
        by_cases hk' : k' = k0
        · rw [dictGet, if_pos hk', dictGet, if_pos hk']
        · rw [dictGet, if_neg hk', dictGet, if_neg hk', ih]

lemma dictGet_map_self {V : Type} (d : List (String × V)) (k : String) (v : V)
    (hck : containsKey d k = true) :
    dictGet (d.map (fun p => if p.1 = k then (k, v) else p)) k = some v := by
  induction d with
  | nil => simp [containsKey] at hck
  | cons p rest ih =>
    cases p with
    | mk k0 v0 =>
      simp only [List.map_cons]
      by_cases hk0 : k0 = k
      · subst hk0
        rw [overwriteEntry_eq_of_fst _ _ _ _ rfl]
        rw [dictGet, if_pos rfl]
      · rw [overwriteEntry_eq_of_ne _ _ _ _ hk0]
        rw [dictGet, if_neg (fun he => hk0 he.symm)]
        refine ih ?_
        simp only [containsKey, List.any_cons, Bool.or_eq_true] at hck
        rcases hck with h | h
        · exact absurd (by simpa using h) hk0
        · simpa [containsKey] using h

/-- Lookup after a dict assignment: the assigned key reads back the new
value, every other key is unchanged. -/
lemma dictGet_dictSet {V : Type} (d : List (String × V)) (k k' : String) (v : V) :
    dictGet (dictSet d k v) k' = if k' = k then some v else dictGet d k' := by
  rw [dictSet]
  by_cases hck : containsKey d k
  · rw [if_pos hck]
    by_cases hk' : k' = k
    · subst hk'
      rw [if_pos rfl]
      exact dictGet_map_self d k' v hck
    · rw [if_neg hk']
      exact dictGet_map_overwrite d k k' v hk'
  · rw [if_neg hck]
    rw [dictGet_append]
    by_cases hk' : k' = k
    · subst hk'
      rw [dictGet_eq_none_of_not_containsKey d k' (by simpa using hck)]
      rw [dictGet, if_pos rfl, if_pos rfl]
    · rw [if_neg hk']
      cases hdk : dictGet d k' with
      | some w => rfl
      | none => rw [dictGet, if_neg hk']; rfl

lemma dictGet_eq_none_of_not_mem_keys {V : Type} (d : List (String × V)) (k : String)
    (h : k ∉ d.map Prod.fst) : dictGet d k = none := by
  apply dictGet_eq_none_of_not_containsKey
  rw [containsKey, List.any_eq_false]
  intro p hp
  simp only [decide_eq_true_eq]
  intro he
  exact h (List.mem_map.2 ⟨p, hp, he⟩)

/-- Lookup after `base.update(src)` (unique keys in `src`): keys of `src`
read back their `src` values, all other keys fall through to `base`. -/
lemma dictGet_dictUpdate {V : Type} (src base : List (String × V)) (k : String)
    (hnd : (src.map Prod.fst).Nodup) :
    dictGet (dictUpdate base src) k =
      match dictGet src k with
      | some v => some v
      | none => dictGet base k := by
  induction src generalizing base with
  | nil => simp [dictUpdate, dictGet]
  | cons p rest ih =>
    cases p with
    | mk k0 v0 =>
      simp only [List.map_cons, List.nodup_cons] at hnd
      have hstep : dictUpdate base ((k0, v0) :: rest) = dictUpdate (dictSet base k0 v0) rest := rfl
      rw [hstep, ih _ hnd.2]
      by_cases hk : k = k0
      · subst hk
        rw [dictGet_eq_none_of_not_mem_keys rest k hnd.1]
        simp [dictGet, dictGet_dictSet]
      · rw [dictGet, if_neg hk]
        cases hr : dictGet rest k with
        | some w => rfl
        | none => simp [dictGet_dictSet, hk]

end KH

namespace KH

/-! ## Lemmas about `safe_request` -/

/-- When every attempt within the budget fails with a `URLError`, the loop
performs all `retryCount` attempts with a sleep between consecutive ones
and re-raises the last error. -/
lemma safeRequestGo_all_url {α : Type} (world : ℕ → Except NetError α) (retryCount : ℕ)
    (errAt : ℕ → NetError)
    (hw : ∀ i, i < retryCount → world i = .error (errAt i) ∧ isURLError (errAt i) = true) :
    ∀ fuel attempt sleeps, attempt + fuel = retryCount → 1 ≤ fuel →
      safeRequestGo world retryCount fuel attempt sleeps
        = (.raised (errAt (retryCount - 1)), sleeps + (fuel - 1)) := by
  intro fuel
  induction fuel with
  | zero =>
    intro attempt sleeps _ h2
    exact absurd h2 (by omega)
  | succ f ih =>
    intro attempt sleeps hsum _
    have hai : attempt < retryCount := by omega
    obtain ⟨hwi, hurl⟩ := hw attempt hai
    rw [safeRequestGo, hwi]
    simp only [hurl, if_true]
    by_cases hlt : attempt < retryCount - 1
    · rw [if_pos hlt]
      have hf : 1 ≤ f := by omega
      rw [ih (attempt + 1) (sleeps + 1) (by omega) hf]
      have : sleeps + 1 + (f - 1) = sleeps + (f + 1 - 1) := by omega
      rw [this]
    · rw [if_neg hlt]
      have hf0 : f = 0 := by omega
      subst hf0
      have ha : attempt = retryCount - 1 := by omega
      rw [ha]
      simp

/-- Claim C4, corrected.  `safe_request` retries precisely on `URLError`
failures; since `urllib.error.HTTPError` subclasses `URLError`, HTTP status
errors are retried exactly like transport errors, while any non-`URLError`
exception propagates immediately.  On a budget of all-failing attempts it
performs `retryCount` attempts total with a fixed-delay sleep between
consecutive attempts and re-raises the final underlying error. -/
theorem c4_retry_policy (α : Type) (world : ℕ → Except NetError α) (retryCount : ℕ)
    (errAt : ℕ → NetError) (h1 : 1 ≤ retryCount) :
    ((∀ i, i < retryCount → world i = .error (errAt i) ∧ isURLError (errAt i) = true) →
      safe_request world retryCount = (.raised (errAt (retryCount - 1)), retryCount - 1))
    ∧ (∀ e, world 0 = .error e → isURLError e = false →
      safe_request world retryCount = (.raised e, 0)) := by
  constructor
  · intro hw
    rw [safe_request, safeRequestGo_all_url world retryCount errAt hw retryCount 0 0 (by omega) h1]
    simp
  · intro e hw0 hne
    obtain ⟨k, rfl⟩ : ∃ k, retryCount = k + 1 := ⟨retryCount - 1, by omega⟩
    rw [safe_request, safeRequestGo, hw0]
    simp [hne]

/-- Witness for C4 at a concrete input: two transport failures with a
budget of 2 end in the final error being re-raised after one sleep. -/
theorem c4_retry_policy_witness :
    safe_request (fun _ => (Except.error (NetError.transport "timeout") : Except NetError ℕ)) 2
      = (ReqResult.raised (NetError.transport "timeout"), 1) := by
  have h := (c4_retry_policy ℕ
    (fun _ => (Except.error (NetError.transport "timeout") : Except NetError ℕ)) 2
    (fun _ => NetError.transport "timeout") (by decide)).1 (fun i _ => ⟨rfl, rfl⟩)
  simpa using h

/-- Claim C4 counterexample: on an HTTP 404 at the first attempt
`safe_request` retries (and here succeeds on the second attempt) instead of
surfacing the HTTP error without retrying, because `HTTPError` is caught by
the `except urllib.error.URLError` clause. -/
theorem c4_counterexample :
    safe_request (fun n => if n = 0 then Except.error (NetError.http 404) else Except.ok 7) 3
      = (ReqResult.ok 7, 1)
    ∧ safe_request (fun n => if n = 0 then Except.error (NetError.http 404) else Except.ok 7) 3
      ≠ (ReqResult.raised (NetError.http 404), 0) := by
  decide

/-! ## Claim theorems: configuration loading -/

/-- Claim C9, corrected.  On a parsed configuration object with unique
keys: missing documented keys fall back to their defaults, stored keys read
back their stored values (unknown stored keys included, since `dict.update`
retains them instead of dropping them), and a malformed or absent file
yields the full default configuration (the malformed case logging a
warning, never fatal). -/
theorem c9_config_load (home : String) (d : List (String × JValue))
    (hnd : (d.map Prod.fst).Nodup) :
    load_config home .malformed = DEFAULT_CONFIG home
    ∧ load_config home .absent = DEFAULT_CONFIG home
    ∧ (∀ k, dictGet d k = none →
      dictGet (load_config home (.parsed d)) k = dictGet (DEFAULT_CONFIG home) k)
    ∧ (∀ k v, dictGet d k = some v → dictGet (load_config home (.parsed d)) k = some v) := by
  refine ⟨rfl, rfl, ?_, ?_⟩
  · intro k hk
    show dictGet (dictUpdate (DEFAULT_CONFIG home) d) k = dictGet (DEFAULT_CONFIG home) k
    rw [dictGet_dictUpdate d (DEFAULT_CONFIG home) k hnd, hk]
  · intro k v hk
    show dictGet (dictUpdate (DEFAULT_CONFIG home) d) k = some v
    rw [dictGet_dictUpdate d (DEFAULT_CONFIG home) k hnd, hk]

/-- Witness for C9 at a concrete input: a stored `max_threads` overrides
the default and a missing `retry_delay` falls back to the default `5`. -/
theorem c9_config_load_witness :
    dictGet (load_config "/home/u" (.parsed [("max_threads", JValue.jnum 8)])) "max_threads"
      = some (JValue.jnum 8)
    ∧ dictGet (load_config "/home/u" (.parsed [("max_threads", JValue.jnum 8)])) "retry_delay"
      = some (JValue.jnum 5) :=
  ⟨(c9_config_load "/home/u" [("max_threads", JValue.jnum 8)] (by decide)).2.2.2
      "max_threads" (JValue.jnum 8) (by decide),
   ((c9_config_load "/home/u" [("max_threads", JValue.jnum 8)] (by decide)).2.2.1
      "retry_delay" (by decide)).trans (by decide)⟩

/-- Claim C9 counterexample: a stored object with the unknown key
`favorite_color` produces a configuration that still contains that key
(seven keys, not "exactly the six documented keys"), because
`merged_config.update(config)` inserts unknown keys rather than ignoring
them. -/
theorem c9_counterexample :
    (load_config "/home/u" (.parsed [("favorite_color", JValue.jstr "blue")])).map Prod.fst
      ≠ ["output_directory", "max_threads", "format_preference", "include_track_number",
         "retry_attempts", "retry_delay"]
    ∧ dictGet (load_config "/home/u" (.parsed [("favorite_color", JValue.jstr "blue")]))
        "favorite_color" = some (JValue.jstr "blue") := by
  decide

/-! ## Claim theorems: URL normalization -/

/-- Claim C7: decoding after encoding with `/` and `:` left unescaped is
the identity on already-decoded (ASCII) URL strings, and `/` and `:` are
indeed left unescaped by the encoder. -/
theorem c7_url_roundtrip (s : String) (h : ∀ c ∈ s.data, c.toNat < 128) :
    unquoteS (quoteS s) = s
    ∧ percentEncodeChar '/' = ['/'] ∧ percentEncodeChar ':' = [':'] := by
  refine ⟨?_, by decide, by decide⟩
  show (⟨percentDecode (percentEncode s.data)⟩ : String) = s
  rw [percentDecode_percentEncode s.data h]

/-- Witness for C7 at a concrete input containing spaces, parentheses and a
`%` that a double-decode left behind. -/
theorem c7_url_roundtrip_witness :
    (∀ c ∈ ("https://x.com/ost/Track 01 (Intro).mp3" : String).data, c.toNat < 128)
    ∧ unquoteS (quoteS "https://x.com/ost/Track 01 (Intro).mp3")
      = "https://x.com/ost/Track 01 (Intro).mp3" :=
  ⟨by decide, (c7_url_roundtrip "https://x.com/ost/Track 01 (Intro).mp3" (by decide)).1⟩

end KH

namespace KH

/-! ## Lemmas and claim theorems for `download_file` -/

/-- The skip check never fires with an unknown (`0`) expected size. -/
lemma skipCheck_zero (disk : Option ℕ) : skipCheck disk 0 = false := by
  cases disk <;> simp [skipCheck]

/-- The fetch counter never decreases across the retry loop. -/
lemma downloadFileGo_fetches_mono (world : ℕ → AttemptOutcome) (expected : ℚ)
    (retryCount : ℕ) :
    ∀ fuel attempt st,
      st.fetches ≤ (downloadFileGo world expected retryCount fuel attempt st).1.fetches := by
  intro fuel
  induction fuel with
  | zero => intro attempt st; simp [downloadFileGo]
  | succ f ih =>
    intro attempt st
    by_cases hs : skipCheck st.disk expected = true
    · simp [downloadFileGo, hs]
    · cases hw : world attempt with
      | transfer len delivered =>
        simp only [downloadFileGo, hs, if_false, hw, Bool.false_eq_true]
        by_cases hmis : 0 < len ∧ len ≠ delivered
        · rw [if_pos hmis]
          by_cases hlt : attempt < retryCount - 1
          · rw [if_pos hlt]
            exact Nat.le_trans (Nat.le_succ _)
              (ih (attempt + 1) ⟨some delivered, st.fetches + 1, st.sleeps + 1⟩)
          · rw [if_neg hlt]
            exact Nat.le_succ _
        · rw [if_neg hmis]
          exact Nat.le_succ _
      | failAt written =>
        cases written with
        | some b =>
          simp only [downloadFileGo, hs, if_false, hw, Bool.false_eq_true]
          by_cases hlt : attempt < retryCount - 1
          · rw [if_pos hlt]
            exact Nat.le_trans (Nat.le_succ _)
              (ih (attempt + 1) ⟨some b, st.fetches + 1, st.sleeps + 1⟩)
          · rw [if_neg hlt]
            exact Nat.le_succ _
        | none =>
          simp only [downloadFileGo, hs, if_false, hw, Bool.false_eq_true]
          by_cases hlt : attempt < retryCount - 1
          · rw [if_pos hlt]
            exact Nat.le_trans (Nat.le_succ _)
              (ih (attempt + 1) ⟨st.disk, st.fetches + 1, st.sleeps + 1⟩)
          · rw [if_neg hlt]
            exact Nat.le_succ _

/-- Claim C3: if the destination file exists, the expected size is known
(non-zero), and the file's size in megabytes is within 0.1 MB of it,
`download_file` returns success with zero network transfers and zero
sleeps; with an unknown expected size no skip happens — the first attempt
always starts a transfer. -/
theorem c3_idempotent_skip (world : ℕ → AttemptOutcome) (expected : ℚ) (retryCount : ℕ)
    (h1 : 1 ≤ retryCount) :
    (∀ b : ℕ, expected ≠ 0 → |mbOfBytes b - expected| < 1 / 10 →
      download_file world expected retryCount (some b) = (⟨some b, 0, 0⟩, some true))
    ∧ (∀ disk0 : Option ℕ, expected = 0 →
      1 ≤ (download_file world expected retryCount disk0).1.fetches) := by
  constructor
  · intro b hne hclose
    obtain ⟨k, rfl⟩ : ∃ k, retryCount = k + 1 := ⟨retryCount - 1, by omega⟩
    have hs : skipCheck (some b) expected = true := by
      show (decide (expected ≠ 0) && decide (|mbOfBytes b - expected| < 1 / 10)) = true
      rw [decide_eq_true hne, decide_eq_true hclose, Bool.and_self]
    rw [download_file, downloadFileGo, if_pos hs]
  · intro disk0 h0
    subst h0
    obtain ⟨k, rfl⟩ : ∃ k, retryCount = k + 1 := ⟨retryCount - 1, by omega⟩
    rw [download_file]
    have hs : ¬ skipCheck disk0 0 = true := by
      rw [skipCheck_zero]; exact Bool.false_ne_true
    cases hw : world 0 with
    | transfer len delivered =>
      simp only [downloadFileGo, hs, if_false, hw, Bool.false_eq_true]
      by_cases hmis : 0 < len ∧ len ≠ delivered
      · rw [if_pos hmis]
        by_cases hlt : 0 < k + 1 - 1
        · rw [if_pos hlt]
          exact Nat.le_trans (Nat.le_refl 1)
            (downloadFileGo_fetches_mono world 0 (k + 1) k 1 ⟨some delivered, 1, 1⟩)
        · rw [if_neg hlt]
      · rw [if_neg hmis]
    | failAt written =>
      cases written with
      | some b =>
        simp only [downloadFileGo, hs, if_false, hw, Bool.false_eq_true]
        by_cases hlt : 0 < k + 1 - 1
        · rw [if_pos hlt]
          exact Nat.le_trans (Nat.le_refl 1)
            (downloadFileGo_fetches_mono world 0 (k + 1) k 1 ⟨some b, 1, 1⟩)
        · rw [if_neg hlt]
      | none =>
        simp only [downloadFileGo, hs, if_false, hw, Bool.false_eq_true]
        by_cases hlt : 0 < k + 1 - 1
        · rw [if_pos hlt]
          exact Nat.le_trans (Nat.le_refl 1)
            (downloadFileGo_fetches_mono world 0 (k + 1) k 1 ⟨disk0, 1, 1⟩)
        · rw [if_neg hlt]

/-- Witness for C3 at a concrete input: a 10433331-byte file (about
9.95 MB) against an expected 10.0 MB is skipped with zero fetches. -/
theorem c3_idempotent_skip_witness :
    download_file (fun _ => AttemptOutcome.transfer 0 0) 10 3 (some 10433331)
      = (⟨some 10433331, 0, 0⟩, some true) :=
  (c3_idempotent_skip (fun _ => AttemptOutcome.transfer 0 0) 10 3 (by norm_num)).1
    10433331 (by norm_num) (by rw [mbOfBytes, abs_sub_lt_iff]; constructor <;> norm_num)

/-- When every attempt streams `d` of an advertised `len ≠ d` bytes and the
resulting file never satisfies the skip check, the loop performs all its
attempts, sleeping between consecutive ones, and returns `False`. -/
lemma downloadFileGo_all_mismatch (world : ℕ → AttemptOutcome) (expected : ℚ)
    (retryCount len d : ℕ)
    (hw : ∀ i, i < retryCount → world i = .transfer len d)
    (hlen : 0 < len) (hne : len ≠ d)
    (hnoskip : skipCheck (some d) expected = false) :
    ∀ fuel attempt st, attempt + fuel = retryCount → 1 ≤ fuel →
      skipCheck st.disk expected = false →
      downloadFileGo world expected retryCount fuel attempt st
        = (⟨some d, st.fetches + fuel, st.sleeps + (fuel - 1)⟩, some false) := by
  intro fuel
  induction fuel with
  | zero =>
    intro attempt st _ h2
    exact absurd h2 (by omega)
  | succ f ih =>
    intro attempt st hsum _ hskip
    have hai : attempt < retryCount := by omega
    have hskip' : ¬ skipCheck st.disk expected = true := by
      rw [hskip]; exact Bool.false_ne_true
    simp only [downloadFileGo, hskip', if_false, hw attempt hai, Bool.false_eq_true]
    have hmis : 0 < len ∧ len ≠ d := ⟨hlen, hne⟩
    rw [if_pos hmis]
    by_cases hlt : attempt < retryCount - 1
    · rw [if_pos hlt]
      rw [ih (attempt + 1) ⟨some d, st.fetches + 1, st.sleeps + 1⟩ (by omega) (by omega) hnoskip]
      have e1 : st.fetches + 1 + f = st.fetches + (f + 1) := by omega
      have e2 : st.sleeps + 1 + (f - 1) = st.sleeps + (f + 1 - 1) := by omega
      rw [e1, e2]
    · rw [if_neg hlt]
      have hf0 : f = 0 := by omega
      subst hf0
      simp

/-- Claim C6: when the advertised content length is positive and every one
of the `retryCount` attempts delivers a byte count different from it (and
the partial file never passes the skip check), `download_file` performs all
`retryCount` attempts with a sleep between consecutive ones and returns
`False` — a boolean failure, not an exception. -/
theorem c6_completeness_retry (world : ℕ → AttemptOutcome) (expected : ℚ)
    (retryCount len d : ℕ) (h1 : 1 ≤ retryCount)
    (hw : ∀ i, i < retryCount → world i = .transfer len d)
    (hlen : 0 < len) (hne : len ≠ d)
    (hnoskip : skipCheck (some d) expected = false) :
    download_file world expected retryCount none
      = (⟨some d, retryCount, retryCount - 1⟩, some false) := by
  rw [download_file]
  rw [downloadFileGo_all_mismatch world expected retryCount len d hw hlen hne hnoskip
    retryCount 0 ⟨none, 0, 0⟩ (by omega) h1 (by rfl)]
  simp

/-- Witness for C6 at the spec's Scenario 5: a transfer interrupted after
4 MiB of an advertised 10 MiB, with 3 attempts configured, performs the
first attempt plus exactly two retries (two sleeps) and returns `False`. -/
theorem c6_completeness_retry_witness :
    download_file (fun _ => AttemptOutcome.transfer 10485760 4194304) 10 3 none
      = (⟨some 4194304, 3, 2⟩, some false) :=
  c6_completeness_retry (fun _ => AttemptOutcome.transfer 10485760 4194304) 10 3
    10485760 4194304 (by norm_num) (fun i _ => rfl) (by norm_num) (by norm_num)
    (by show (decide ((10:ℚ) ≠ 0) && decide (|mbOfBytes 4194304 - 10| < 1 / 10)) = false
        have hnot : ¬ (|mbOfBytes 4194304 - (10:ℚ)| < 1 / 10) := by
          rw [mbOfBytes, abs_sub_lt_iff]
          intro hcon
          exact absurd hcon.2 (by norm_num)
        rw [decide_eq_false hnot, Bool.and_false])

end KH

namespace KH

/-! ## Lemmas and claim theorems for `get_track_download_url` -/

/-- Lookup after the inner link scan for one format: only the key `fmt` is
affected, and it ends up holding the candidate of the last matching link. -/
lemma innerFold_get (links : List PageLink) (fmt title : String)
    (d : List (String × TrackCandidate)) (f' : String) :
    dictGet (links.foldl
        (fun d2 l => if linkMatches fmt l then dictSet d2 fmt (candOfLink fmt title l) else d2)
        d) f'
      = if f' = fmt then
          (match lastMatch links fmt with
           | some m => some (candOfLink fmt title m)
           | none => dictGet d fmt)
        else dictGet d f' := by
  induction links generalizing d with
  | nil =>
    by_cases hf : f' = fmt
    · subst hf
      simp [lastMatch]
    · simp [if_neg hf]
  | cons l rest ih =>
    simp only [List.foldl_cons]
    rw [ih]
    by_cases hf : f' = fmt
    · subst hf
      rw [if_pos rfl, if_pos rfl]
      cases hlm : lastMatch rest f' with
      | some m =>
        rw [lastMatch, hlm]
      | none =>
        rw [lastMatch, hlm]
        by_cases hml : linkMatches f' l = true
        · rw [if_pos hml, if_pos hml, dictGet_dictSet, if_pos rfl]
        · rw [if_neg hml, if_neg hml]
    · rw [if_neg hf, if_neg hf]
      by_cases hml : linkMatches fmt l = true
      · rw [if_pos hml, dictGet_dictSet, if_neg hf]
      · rw [if_neg hml]

/-- Lookup in the finished `download_links` dict, for an arbitrary initial
dict: formats of the scanned preference list with a matching link hold the
last matching link's candidate; everything else falls through. -/
lemma outerFold_get (page : DetailPage) (title : String) :
    ∀ (P : List String) (d : List (String × TrackCandidate)) (f : String),
      dictGet (P.foldl (fun dd fmt => page.links.foldl
          (fun d2 l => if linkMatches fmt l then dictSet d2 fmt (candOfLink fmt title l) else d2)
          dd) d) f
        = if f ∈ P ∧ (lastMatch page.links f).isSome = true
          then (lastMatch page.links f).map (candOfLink f title)
          else dictGet d f := by
  intro P
  induction P with
  | nil =>
    intro d f
    simp
  | cons g rest ih =>
    intro d f
    simp only [List.foldl_cons]
    rw [ih]
    by_cases hfr : f ∈ rest ∧ (lastMatch page.links f).isSome = true
    · rw [if_pos hfr, if_pos ⟨List.mem_cons_of_mem g hfr.1, hfr.2⟩]
    · rw [if_neg hfr, innerFold_get]
      by_cases hfg : f = g
      · subst hfg
        rw [if_pos rfl]
        cases hlm : lastMatch page.links f with
        | some m =>
          rw [if_pos ⟨List.mem_cons_self .., rfl⟩]
          rfl
        | none =>
          rw [if_neg (by simp)]
      · rw [if_neg hfg]
        have hno : ¬ (f ∈ g :: rest ∧ (lastMatch page.links f).isSome = true) := by
          intro hcon
          rcases List.mem_cons.1 hcon.1 with h | h
          · exact hfg h
          · exact hfr ⟨h, hcon.2⟩
        rw [if_neg hno]

/-- The retrieval loop over the finished dict returns, for the first format
of the (sub)list that has a candidate, the candidate of its last matching
link. -/
lemma firstPreferred_build (page : DetailPage) (title : String) (P : List String) :
    ∀ Q : List String, (∀ f ∈ Q, f ∈ P) →
      firstPreferred Q (buildDownloadLinks page P title)
        = (Q.find? (fun f => hasCand page f)).bind
            (fun f => (lastMatch page.links f).map (candOfLink f title)) := by
  intro Q
  induction Q with
  | nil => intro _; rfl
  | cons g rest ih =>
    intro hsub
    have hgP : g ∈ P := hsub g (List.mem_cons_self ..)
    have hD : dictGet (buildDownloadLinks page P title) g
        = if (lastMatch page.links g).isSome = true
          then (lastMatch page.links g).map (candOfLink g title)
          else none := by
      rw [buildDownloadLinks, outerFold_get]
      by_cases hav : (lastMatch page.links g).isSome = true
      · rw [if_pos ⟨hgP, hav⟩, if_pos hav]
      · rw [if_neg (fun hc => hav hc.2), if_neg hav]
        rfl
    rw [firstPreferred, hD]
    by_cases hav : (lastMatch page.links g).isSome = true
    · rw [if_pos hav]
      obtain ⟨m, hm⟩ := Option.isSome_iff_exists.1 hav
      rw [hm]
      rw [List.find?_cons_of_pos _ (show (fun f => hasCand page f) g = true from hav)]
      simp only [Option.some_bind, hm, Option.map_some']
    · rw [if_neg hav]
      rw [List.find?_cons_of_neg _ (show ¬ (fun f => hasCand page f) g = true from hav)]
      exact ih (fun f h => hsub f (List.mem_cons_of_mem _ h))

/-- Claim C1: whenever some format of the preference list `P` has a
labelled download link ("Click here to download as `<FORMAT>`"), the
resolver returns the candidate of the format `f0` that `List.find?` picks —
the earliest element of `P` with a matching link — with the last matching
link's href (normalized), the resolved title and the parsed size; a
later-preferred format is never returned when an earlier one is available.
Matching is case-insensitive in the preference token: it only enters the
comparison through `toUpper`. -/
theorem c1_format_priority (page : DetailPage) (trackURL : String) (P : List String)
    (probeOk : String → Bool) (f0 : String)
    (hf : P.find? (fun f => hasCand page f) = some f0) :
    (∃ m, lastMatch page.links f0 = some m ∧
      get_track_download_url page trackURL P probeOk
        = some ⟨quoteS (unquoteS (m.href.getD "")), f0, resolveTitle page trackURL,
            parseSizeText m.parentText⟩)
    ∧ (∀ g g' l, strUpper g = strUpper g' → linkMatches g l = linkMatches g' l) := by
  constructor
  · have hc : hasCand page f0 = true := by
      have h1 := List.find?_some hf
      simpa using h1
    obtain ⟨m, hm⟩ := Option.isSome_iff_exists.1 hc
    refine ⟨m, hm, ?_⟩
    simp only [get_track_download_url, ite_self]
    rw [firstPreferred_build page (resolveTitle page trackURL) P P (fun f h => h), hf]
    simp only [Option.some_bind, hm, Option.map_some']
    rfl
  · intro g g' l hgg
    rw [linkMatches, linkMatches, hgg]

/-- Witness for C1 at a concrete detail page holding both an MP3 and a FLAC
labelled link, with preference `[flac, mp3]` (and a lowercase-vs-uppercase
preference token): the FLAC candidate of the last matching link wins. -/
theorem c1_format_priority_witness :
    (["flac", "mp3"].find? (fun f => hasCand
        ⟨[⟨"Click here to download as MP3", some "/a%20b.mp3", ""⟩,
          ⟨"Click here to download as FLAC", some "/a%20b.flac", ""⟩],
         none, some "Song A"⟩ f) = some "flac")
    ∧ get_track_download_url
        ⟨[⟨"Click here to download as MP3", some "/a%20b.mp3", ""⟩,
          ⟨"Click here to download as FLAC", some "/a%20b.flac", ""⟩],
         none, some "Song A"⟩
        "https://downloads.khinsider.com/t" ["flac", "mp3"] (fun _ => false)
      = some ⟨"/a%20b.flac", "flac", "Song A", 0⟩ := by
  constructor
  · decide
  · obtain ⟨⟨m, hm, hres⟩, -⟩ :=
      c1_format_priority
        ⟨[⟨"Click here to download as MP3", some "/a%20b.mp3", ""⟩,
          ⟨"Click here to download as FLAC", some "/a%20b.flac", ""⟩],
         none, some "Song A"⟩
        "https://downloads.khinsider.com/t" ["flac", "mp3"] (fun _ => false) "flac" (by decide)
    have hm2 : lastMatch
        (⟨[⟨"Click here to download as MP3", some "/a%20b.mp3", ""⟩,
           ⟨"Click here to download as FLAC", some "/a%20b.flac", ""⟩],
          none, some "Song A"⟩ : DetailPage).links "flac"
        = some ⟨"Click here to download as FLAC", some "/a%20b.flac", ""⟩ := by decide
    rw [hm] at hm2
    rw [hres, Option.some.inj hm2]
    decide

end KH

namespace KH

/-- Claim C5, corrected.  In the audio-element fallback tier (no labelled
link matched any preferred format), when `flac` is in the preference list
the resolver derives a speculative FLAC URL by replacing EVERY occurrence
of `.mp3` in the (normalized) audio source with `.flac` — Python's
`str.replace`, not just the suffix — probes it, returns the FLAC candidate
when the probe succeeds, and swallows a probe failure by returning the MP3
candidate instead; it never raises (the model is total and the failing
branch returns the MP3 candidate). -/
theorem c5_audio_fallback (page : DetailPage) (trackURL : String) (P : List String)
    (probeOk : String → Bool) (src0 : String)
    (h1 : P.find? (fun f => hasCand page f) = none)
    (hsrc : page.audioSrc = some src0) (hs : src0 ≠ "")
    (hflac : "flac" ∈ P) :
    get_track_download_url page trackURL P probeOk
      = some (if probeOk (strReplace (quoteS (unquoteS src0)) ".mp3" ".flac")
          then ⟨strReplace (quoteS (unquoteS src0)) ".mp3" ".flac", "flac",
                resolveTitle page trackURL, 0⟩
          else ⟨quoteS (unquoteS src0), "mp3", resolveTitle page trackURL, 0⟩) := by
  simp only [get_track_download_url, ite_self]
  rw [firstPreferred_build page (resolveTitle page trackURL) P P (fun f h => h), h1]
  simp only [Option.none_bind]
  simp only [hsrc]
  have hsb : (src0 != "") = true := by
    simp [bne_iff_ne, hs]
  rw [if_pos hsb]
  have hcf : (P.contains "flac") = true := by
    simpa [List.elem_iff] using hflac
  rw [if_pos hcf]
  by_cases hp : probeOk (strReplace (quoteS (unquoteS src0)) ".mp3" ".flac") = true
  · rw [if_pos hp, if_pos hp]
  · rw [if_neg hp, if_neg hp]

/-- Witness for C5 at a concrete page with no labelled links, an audio
source `/t.mp3`, and a succeeding probe: the FLAC candidate with the
derived URL is returned. -/
theorem c5_audio_fallback_witness :
    get_track_download_url ⟨[], some "/t.mp3", some "Song"⟩ "u" ["flac"] (fun _ => true)
      = some ⟨"/t.flac", "flac", "Song", 0⟩ := by
  rw [c5_audio_fallback ⟨[], some "/t.mp3", some "Song"⟩ "u" ["flac"] (fun _ => true)
    "/t.mp3" (by decide) rfl (by decide) (by decide)]
  decide

/-- Claim C5 counterexample: for the audio source `/x.mp3/t.mp3` (which
contains `.mp3` twice) with a succeeding probe, the code derives
`/x.flac/t.flac` — every occurrence replaced — which differs from the
suffix-only replacement `/x.mp3/t.flac` the claim describes. -/
theorem c5_counterexample :
    get_track_download_url ⟨[], some "/x.mp3/t.mp3", some "T"⟩ "u" ["flac"] (fun _ => true)
      = some ⟨"/x.flac/t.flac", "flac", "T", 0⟩
    ∧ "/x.flac/t.flac" ≠ specFlacFromSuffix "/x.mp3/t.mp3" := by
  constructor
  · decide
  · decide

end KH

namespace KH

/-! ## Lemmas and claim theorems for paths and sanitization (C10) -/

/-- Any character of the result of scrubbing a list of characters is either
an untouched character of the input that is not among the scrubbed ones, or
the replacement `_`. -/
lemma mem_scrubFold : ∀ (L : List Char) (s : String) (x : Char),
    x ∈ (L.foldl (fun s c => scrubChar c s) s).data → (x ∉ L ∧ x ∈ s.data) ∨ x = '_' := by
  intro L
  induction L with
  | nil =>
    intro s x hx
    exact Or.inl ⟨by simp, hx⟩
  | cons c rest ih =>
    intro s x hx
    rw [List.foldl_cons] at hx
    rcases ih (scrubChar c s) x hx with ⟨hnr, hmem⟩ | hu
    · rcases List.mem_map.1 hmem with ⟨y, hy, hyx⟩
      by_cases hyc : y = c
      · rw [if_pos hyc] at hyx
        exact Or.inr hyx.symm
      · rw [if_neg hyc] at hyx
        refine Or.inl ⟨?_, hyx ▸ hy⟩
        intro hmemL
        rcases List.mem_cons.1 hmemL with h | h
        · rw [← hyx] at h
          exact hyc h
        · exact hnr h
    · exact Or.inr hu

/-- Sanitization leaves no forbidden character in its output. -/
lemma sanitize_filename_no_forbidden (s : String) (c : Char)
    (hc : c ∈ forbidden_chars) : c ∉ (sanitize_filename s).data := by
  intro hmem
  rcases mem_scrubFold forbidden_chars s c hmem with ⟨hnr, _⟩ | hu
  · exact hnr hc
  · rw [hu] at hc
    exact absurd hc (by decide)

/-- Claim C10: the destination file name embeds the catalog link text
(`TrackStub.name`) verbatim — the path is built from it, any (forbidden)
character it contains survives into the path — while filesystem
sanitization is applied only to the album title: `sanitize_filename` output
never contains a forbidden character, and the album title produced by
`get_album_info` is sanitized.  The resolved track's extracted title plays
no part in the path. -/
theorem c10_track_name_verbatim (outputDir : String) (stub : TrackStub) (cfg : Config)
    (num : Option ℕ) (env : TrackEnv) (cand : TrackCandidate)
    (hres : get_track_download_url env.page stub.url cfg.format_preference env.probeOk
      = some cand) :
    (download_track stub outputDir cfg num env).1
      = some (trackFilePath outputDir stub.name cfg.include_track_number num cand.format)
    ∧ (∀ c, c ∈ forbidden_chars → c ∈ stub.name.data →
        c ∈ (trackFilePath outputDir stub.name cfg.include_track_number num cand.format).data)
    ∧ (∀ s c, c ∈ forbidden_chars → c ∉ (sanitize_filename s).data)
    ∧ (∀ h2 sl url album, get_album_info h2 sl url = some album →
        ∀ c ∈ forbidden_chars, c ∉ album.title.data) := by
  refine ⟨?_, ?_, fun s c hc => sanitize_filename_no_forbidden s c hc, ?_⟩
  · simp only [download_track, hres]
  · intro c hcf hcn
    rw [trackFilePath, pathJoin]
    cases hin : cfg.include_track_number <;> cases num <;>
      simp [track_filename, String.data_append, hcn]
  · intro h2 sl url album hA c hcf
    cases sl with
    | none => exact absurd hA (by simp [get_album_info])
    | some rows =>
      simp only [get_album_info, Option.some.injEq] at hA
      rw [← hA]
      exact sanitize_filename_no_forbidden _ c hcf

/-- Witness for C10 at a concrete input: a track named `Track? A` (with a
forbidden `?`) resolved to MP3, track number 2, produces a path that keeps
the `?` unmodified. -/
theorem c10_track_name_verbatim_witness :
    (download_track ⟨"Track? A", "u"⟩ "/out/Album_ X"
        ⟨"/out", 3, ["mp3"], true, 1, 5⟩ (some 2)
        ⟨⟨[⟨"Click here to download as MP3", some "/f.mp3", ""⟩], none, some "T"⟩,
         fun _ => false, fun _ => AttemptOutcome.transfer 0 0, none⟩).1
      = some "/out/Album_ X/02 - Track? A.mp3" := by
  rw [(c10_track_name_verbatim "/out/Album_ X" ⟨"Track? A", "u"⟩
      ⟨"/out", 3, ["mp3"], true, 1, 5⟩ (some 2)
      ⟨⟨[⟨"Click here to download as MP3", some "/f.mp3", ""⟩], none, some "T"⟩,
        fun _ => false, fun _ => AttemptOutcome.transfer 0 0, none⟩
      ⟨"/f.mp3", "mp3", "T", 0⟩ (by decide)).1]
  decide

end KH

namespace KH

/-! ## Lemmas and claim theorems for `download_album` (C2, C8) -/

/-- Evaluation of `download_album` on a validated URL with a parsed, non-empty album:
the per-task results in submission order, and the aggregate
`success_count == len(tracks)`. -/
lemma download_album_eq (albumURL : String) (cfg : Config) (env : AlbumEnv)
    (album : AlbumInfo)
    (hv : validate_url albumURL = true)
    (hA : get_album_info env.h2Text env.songlist albumURL = some album)
    (hne : album.tracks ≠ []) :
    download_album albumURL cfg env =
      (album.tracks.enum.map
        (fun p => download_track p.2 (pathJoin cfg.output_directory album.title) cfg
          (some (p.1 + 1)) (env.trackEnvs p.1)),
       decide (((album.tracks.enum.map
          (fun p => download_track p.2 (pathJoin cfg.output_directory album.title) cfg
            (some (p.1 + 1)) (env.trackEnvs p.1))).map Prod.snd).count true
         = album.tracks.length)) := by
  have hie : album.tracks.isEmpty = false := by
    cases htr : album.tracks with
    | nil => exact absurd htr hne
    | cons a t => rfl
  rw [download_album, if_neg (by rw [hv]; simp)]
  simp only [hA]
  rw [if_neg (by rw [hie]; simp)]

/-- A truthy `download_track` result carries a target path. -/
lemma download_track_snd_isSome (stub : TrackStub) (outputDir : String) (cfg : Config)
    (num : Option ℕ) (env : TrackEnv) :
    (download_track stub outputDir cfg num env).2 = true →
    (download_track stub outputDir cfg num env).1.isSome = true := by
  simp only [download_track]
  cases h : get_track_download_url env.page stub.url cfg.format_preference env.probeOk with
  | none => simp
  | some info => simp

/-- Claim C2: the album download reports success exactly when every
submitted track's download succeeded; when the number of successes is
smaller than the number of tracks it reports failure, while every
successful track still has its target file (a path was produced and the
per-track download reported the file present); and one result is produced
per parsed track. -/
theorem c2_all_or_nothing (albumURL : String) (cfg : Config) (env : AlbumEnv)
    (album : AlbumInfo)
    (hv : validate_url albumURL = true)
    (hA : get_album_info env.h2Text env.songlist albumURL = some album)
    (hne : album.tracks ≠ []) :
    ((download_album albumURL cfg env).2 = true ↔
      ∀ r ∈ (download_album albumURL cfg env).1, r.2 = true)
    ∧ ((((download_album albumURL cfg env).1.map Prod.snd).count true < album.tracks.length) →
      (download_album albumURL cfg env).2 = false)
    ∧ (∀ r ∈ (download_album albumURL cfg env).1, r.2 = true → r.1.isSome = true)
    ∧ (download_album albumURL cfg env).1.length = album.tracks.length := by
  rw [download_album_eq albumURL cfg env album hv hA hne]
  have hlen : ((album.tracks.enum.map
      (fun p => download_track p.2 (pathJoin cfg.output_directory album.title) cfg
        (some (p.1 + 1)) (env.trackEnvs p.1))).length) = album.tracks.length := by
    rw [List.length_map, List.enum_length]
  refine ⟨?_, ?_, ?_, hlen⟩
  · rw [decide_eq_true_iff]
    constructor
    · intro hcnt r hr
      have hall := List.count_eq_length.1 (by rw [List.length_map, hlen]; exact hcnt)
      exact (hall r.2 (List.mem_map.2 ⟨r, hr, rfl⟩)).symm
    · intro hall
      rw [show ((album.tracks.enum.map
          (fun p => download_track p.2 (pathJoin cfg.output_directory album.title) cfg
            (some (p.1 + 1)) (env.trackEnvs p.1))).map Prod.snd).count true
          = ((album.tracks.enum.map
          (fun p => download_track p.2 (pathJoin cfg.output_directory album.title) cfg
            (some (p.1 + 1)) (env.trackEnvs p.1))).map Prod.snd).length from
        List.count_eq_length.2 (by
          intro b hb
          rcases List.mem_map.1 hb with ⟨r, hr, hrb⟩
          rw [← hrb]
          exact (hall r hr).symm)]
    
      rw [List.length_map, hlen]
  · intro hlt
    exact decide_eq_false (Nat.ne_of_lt hlt)
  · intro r hr
    rcases List.mem_map.1 hr with ⟨p, hp, hpr⟩
    rw [← hpr]
    exact download_track_snd_isSome p.2 (pathJoin cfg.output_directory album.title) cfg
      (some (p.1 + 1)) (env.trackEnvs p.1)

/-- Witness for C2 at a concrete two-track album where the first track's
download succeeds and the second fails: the album reports failure while one
successful result (with its file path) is present. -/
theorem c2_all_or_nothing_witness :
    (download_album "https://downloads.khinsider.com/game-soundtracks/album/x"
        ⟨"/out", 3, ["mp3"], true, 1, 5⟩
        ⟨some "A",
         some [⟨some (some "/t1", "Alpha")⟩, ⟨some (some "/t2", "Beta")⟩],
         fun i =>
           if i = 0 then
             ⟨⟨[⟨"Click here to download as MP3", some "/f1.mp3", ""⟩], none, some "T1"⟩,
              fun _ => false, fun _ => AttemptOutcome.transfer 0 0, none⟩
           else
             ⟨⟨[⟨"Click here to download as MP3", some "/f2.mp3", ""⟩], none, some "T2"⟩,
              fun _ => false, fun _ => AttemptOutcome.failAt none, none⟩⟩).2 = false
    ∧ ((download_album "https://downloads.khinsider.com/game-soundtracks/album/x"
        ⟨"/out", 3, ["mp3"], true, 1, 5⟩
        ⟨some "A",
         some [⟨some (some "/t1", "Alpha")⟩, ⟨some (some "/t2", "Beta")⟩],
         fun i =>
           if i = 0 then
             ⟨⟨[⟨"Click here to download as MP3", some "/f1.mp3", ""⟩], none, some "T1"⟩,
              fun _ => false, fun _ => AttemptOutcome.transfer 0 0, none⟩
           else
             ⟨⟨[⟨"Click here to download as MP3", some "/f2.mp3", ""⟩], none, some "T2"⟩,
              fun _ => false, fun _ => AttemptOutcome.failAt none, none⟩⟩).1.map Prod.snd).count
        true = 1 := by
  have h := c2_all_or_nothing "https://downloads.khinsider.com/game-soundtracks/album/x"
    ⟨"/out", 3, ["mp3"], true, 1, 5⟩
    ⟨some "A",
     some [⟨some (some "/t1", "Alpha")⟩, ⟨some (some "/t2", "Beta")⟩],
     fun i =>
       if i = 0 then
         ⟨⟨[⟨"Click here to download as MP3", some "/f1.mp3", ""⟩], none, some "T1"⟩,
          fun _ => false, fun _ => AttemptOutcome.transfer 0 0, none⟩
       else
         ⟨⟨[⟨"Click here to download as MP3", some "/f2.mp3", ""⟩], none, some "T2"⟩,
          fun _ => false, fun _ => AttemptOutcome.failAt none, none⟩⟩
    ⟨"A", "https://downloads.khinsider.com/game-soundtracks/album/x",
     [⟨"Alpha", "https://downloads.khinsider.com/t1"⟩,
      ⟨"Beta", "https://downloads.khinsider.com/t2"⟩]⟩
    (by decide) (by decide) (by decide)
  exact ⟨h.2.1 (by decide), by decide⟩

end KH

namespace KH

/-- The file-name prefix written out: with numbering on, the zero-padded
number and a dash precede the name; with numbering off, nothing does. -/
lemma track_filename_some_append (name fmt : String) (incl : Bool) (n : ℕ) :
    track_filename name incl (some n) ++ "." ++ fmt
      = (if incl then format02d n ++ " - " else "") ++ name ++ "." ++ fmt := by
  obtain ⟨d⟩ := name
  cases incl <;> rfl

/-- Claim C8: for a validated URL and parsed album, the `i`-th submitted
task (0-based submission order, bound by `enumerate` at submission) resolves
track `i` of the catalog and targets
`{outputDirectory}/{sanitizedAlbumTitle}/{[NN - ]trackName}.{format}` with
`NN = i + 1`, the task's 1-based catalog position — the number is part of
the captured task data, so it cannot depend on completion order — and the
number prefix appears exactly when `include_track_number` is set.  The
album directory name is the sanitized page title. -/
theorem c8_layout (albumURL : String) (cfg : Config) (env : AlbumEnv) (album : AlbumInfo)
    (hv : validate_url albumURL = true)
    (hA : get_album_info env.h2Text env.songlist albumURL = some album)
    (hne : album.tracks ≠ [])
    (i : ℕ) (stub : TrackStub) (cand : TrackCandidate)
    (hstub : album.tracks.get? i = some stub)
    (hres : get_track_download_url (env.trackEnvs i).page stub.url cfg.format_preference
      (env.trackEnvs i).probeOk = some cand) :
    ((download_album albumURL cfg env).1.map Prod.fst).get? i
      = some (some (pathJoin (pathJoin cfg.output_directory album.title)
          ((if cfg.include_track_number then format02d (i + 1) ++ " - " else "")
            ++ stub.name ++ "." ++ cand.format)))
    ∧ album.title = sanitize_filename (match env.h2Text with
        | some t => strStrip t
        | none => "Unknown Album") := by
  constructor
  · rw [download_album_eq albumURL cfg env album hv hA hne]
    simp only [List.get?_map, List.get?_enum, hstub, Option.map_some']
    simp only [download_track, hres]
    rw [trackFilePath, track_filename_some_append]
  · cases hsl : env.songlist with
    | none => rw [hsl] at hA; exact absurd hA (by simp [get_album_info])
    | some rows =>
      rw [hsl] at hA
      simp only [get_album_info, Option.some.injEq] at hA
      rw [← hA]

/-- Witness for C8 at a concrete one-track album: the first task gets
number `01` and the file lands under the sanitized album directory
`Album_ X` (from the raw title `Album: X`). -/
theorem c8_layout_witness :
    ((download_album "https://downloads.khinsider.com/game-soundtracks/album/x"
        ⟨"/out", 3, ["mp3"], true, 1, 5⟩
        ⟨some "Album: X", some [⟨some (some "/t1", "Alpha")⟩],
         fun _ =>
           ⟨⟨[⟨"Click here to download as MP3", some "/f1.mp3", ""⟩], none, some "T1"⟩,
            fun _ => false, fun _ => AttemptOutcome.transfer 0 0, none⟩⟩).1.map
        Prod.fst).get? 0
      = some (some "/out/Album_ X/01 - Alpha.mp3") := by
  rw [(c8_layout "https://downloads.khinsider.com/game-soundtracks/album/x"
      ⟨"/out", 3, ["mp3"], true, 1, 5⟩
      ⟨some "Album: X", some [⟨some (some "/t1", "Alpha")⟩],
       fun _ =>
         ⟨⟨[⟨"Click here to download as MP3", some "/f1.mp3", ""⟩], none, some "T1"⟩,
          fun _ => false, fun _ => AttemptOutcome.transfer 0 0, none⟩⟩
      ⟨"Album_ X", "https://downloads.khinsider.com/game-soundtracks/album/x",
       [⟨"Alpha", "https://downloads.khinsider.com/t1"⟩]⟩
      (by decide) (by decide) (by decide) 0
      ⟨"Alpha", "https://downloads.khinsider.com/t1"⟩
      ⟨"/f1.mp3", "mp3", "T1", 0⟩ (by decide) (by decide)).1]
  decide

end KH
